import Mathlib

/-!
Shallow embedding of the Mini-Agent orchestration core — the modules
`mini_agent/orchestration/executor.py`, `task_router.py`,
`result_aggregator.py` and `orchestrator.py` — together with proofs that
check the sentences of the specification against this embedding.

Modelling conventions, stated once:

* Python `float` arithmetic is modelled by `ℚ`.  Every numeric comparison the
  source performs (`cpu/total > 0.5`, `rate >= threshold`, score arithmetic
  with the constants 0.3, 0.05, 0.5, 0.9, 1.0) involves small integers and
  decimal constants whose double rounding error is far below the distance to
  the compared boundary for any feasible batch size, so the exact rational
  comparison agrees with the float one.
* A worker agent (`Agent` in the source) is opaque to the orchestration core;
  it is modelled as a behaviour mapping the messages it received
  (`add_user_message` calls) to one of: a result string with a token count,
  a raised exception message, or exceeding the caller's timeout
  (`asyncio.wait_for` cancellation).
* `asyncio` concurrency collapses to deterministic evaluation: `gather`
  returns results in the order of the coroutine list, which the source builds
  from the priority-sorted task list; the admission semaphore bounds
  concurrency but does not affect which outcomes are produced.
* Python's `md5(json.dumps(key_fields, sort_keys=True))` in
  `ResultAggregator._hash_result` is modelled by the extracted key triple
  itself (the dump is injective on the triple; md5 collisions are outside the
  model).
* Python `dict`s keyed by strings become association lists (insertion at the
  front, first-match lookup — the same lookup semantics) or functions.
-/

namespace MiniAgent

/-- ASCII case folding, modelling `str.lower()`.  The source's keyword lists
and every input considered here contain only ASCII characters (where Python's
`lower` and `Char.toLower` agree) and CJK characters (caseless in both). -/
def pyLower (s : String) : String := String.mk (s.toList.map Char.toLower)

/-- Python's substring test `needle in hay`, on exploded character lists. -/
def containsSub (needle hay : List Char) : Bool :=
  (List.range (hay.length + 1)).any fun i => needle.isPrefixOf (hay.drop i)

/-- The fixed bilingual CPU-keyword list of `OptimizedExecutor.__init__`. -/
def cpu_keywords : List String :=
  ["计算", "分析", "处理", "转换", "统计", "批量",
   "编译", "渲染", "生成", "加密", "解压", "压缩",
   "calculate", "analyze", "process", "transform", "statistic",
   "batch", "generate", "render", "compile", "encrypt", "compress",
   "parse", "encode", "decode", "filter", "map", "reduce"]

/-- `Task` dataclass of `executor.py`.  `context` is an ordered key→value map
(`None` becomes the empty list, matching Python truthiness). -/
structure Task where
  agent_name : String
  task : String
  context : List (String × String) := []
  timeout : Nat := 300
  priority : Int := 0
  task_type : String := "io_bound"
deriving DecidableEq

/-- `OptimizedExecutor.analyze_task_type`: keyword-substring classification of
the task description. -/
def analyze_task_type (t : Task) : String :=
  if cpu_keywords.any (fun kw => containsSub (pyLower kw).toList (pyLower t.task).toList)
  then "cpu_bound" else "io_bound"

/-! ### Worker behaviour and `execute_task` -/

/-- Behaviour of one `agent.run()` call as seen through the caller's
`asyncio.wait_for` gate: it returns a result string (with the agent's
`api_total_tokens` counter), raises an exception, or exceeds the timeout. -/
inductive RunBeh where
  | ok (result : String) (tokens : Nat)
  | raises (msg : String)
  | hangs
deriving DecidableEq

/-- The registry `agents : Dict[str, Agent]`: each registered worker is an
opaque behaviour of the messages it has been sent (`add_user_message`). -/
def AgentEnv : Type := String → Option (List String → RunBeh)

/-- `OptimizedExecutor._format_context`. -/
def format_context (context : List (String × String)) : String :=
  String.intercalate "\n"
    ("[Context]" :: context.map (fun kv => "- " ++ kv.1 ++ ": " ++ kv.2))

/-- The messages `execute_task` sends to the worker before awaiting it: the
formatted context when truthy (non-empty), then the task text. -/
def agent_messages (t : Task) : List String :=
  (if t.context.isEmpty then [] else [format_context t.context]) ++ [t.task]

/-- One entry of the executor's result list (the per-task result dict).
Missing dict keys are `none`. -/
structure Outcome where
  agent : String
  success : Bool
  result : Option String := none
  error : Option String := none
  task_type : String
  token_usage : Option Nat := none
deriving DecidableEq

/-- `OptimizedExecutor.execute_task` (semaphore admission elided: it bounds
concurrency, not the produced outcome). -/
def execute_task (env : AgentEnv) (t : Task) : Outcome :=
  match env t.agent_name with
  | none =>
      { agent := t.agent_name, success := false,
        error := some ("未知代理: " ++ t.agent_name), task_type := "unknown" }
  | some beh =>
      let tt := analyze_task_type t
      match beh (agent_messages t) with
      | .ok r tok =>
          { agent := t.agent_name, success := true, result := some r,
            task_type := tt, token_usage := some tok }
      | .hangs =>
          { agent := t.agent_name, success := false,
            error := some ("任务在 " ++ toString t.timeout ++ " 秒后超时"),
            task_type := tt }
      | .raises e =>
          { agent := t.agent_name, success := false, error := some e,
            task_type := tt }

/-! ### Stable priority sort (`sorted(tasks, key=lambda t: -t.priority)`) -/

/-- Index-tagging, used to express the stability of Python's `sorted`. -/
def withIdxFrom {α : Type} (i : Nat) : List α → List (Nat × α)
  | [] => []
  | a :: l => (i, a) :: withIdxFrom (i + 1) l

/-- Descending-key order with input-position tie-break: `p` may come no later
than `q`.  A stable descending sort by `key` of an index-tagged list is
exactly a sort by this total order, which (by uniqueness of sorted
permutations under a total antisymmetric order on distinct index tags) pins
down the output of Python's stable `list.sort(key=lambda x: -key(x))`. -/
def stableKeyBefore {α K : Type} [LinearOrder K] (key : α → K)
    (p q : Nat × α) : Prop :=
  key q.2 < key p.2 ∨ (key p.2 = key q.2 ∧ p.1 ≤ q.1)

instance {α K : Type} [LinearOrder K] (key : α → K) :
    DecidableRel (stableKeyBefore key) := fun p q => by
  unfold stableKeyBefore; infer_instance

instance {α K : Type} [LinearOrder K] (key : α → K) :
    IsTotal (Nat × α) (stableKeyBefore key) := by
  constructor
  intro p q
  unfold stableKeyBefore
  rcases lt_trichotomy (key p.2) (key q.2) with h | h | h
  · exact Or.inr (Or.inl h)
  · rcases Nat.le_total p.1 q.1 with h' | h'
    · exact Or.inl (Or.inr ⟨h, h'⟩)
    · exact Or.inr (Or.inr ⟨h.symm, h'⟩)
  · exact Or.inl (Or.inl h)

instance {α K : Type} [LinearOrder K] (key : α → K) :
    IsTrans (Nat × α) (stableKeyBefore key) := by
  constructor
  intro a b c hab hbc
  unfold stableKeyBefore at *
  rcases hab with h1 | ⟨h1, h1'⟩ <;> rcases hbc with h2 | ⟨h2, h2'⟩
  · exact Or.inl (lt_trans h2 h1)
  · exact Or.inl (h2 ▸ h1)
  · exact Or.inl (h1 ▸ h2)
  · exact Or.inr ⟨h1.trans h2, h1'.trans h2'⟩

/-- Python's stable `sorted(l, key=lambda x: -key(x))`. -/
def pyStableSortDescBy {α K : Type} [LinearOrder K] (key : α → K)
    (l : List α) : List α :=
  (List.insertionSort (stableKeyBefore key) (withIdxFrom 0 l)).map Prod.snd

/-- `sorted(tasks, key=lambda t: -t.priority)` of `execute_parallel`. -/
def pySortByPriorityDesc (l : List Task) : List Task :=
  pyStableSortDescBy (fun t => t.priority) l

/-! ### The four execution strategies -/

/-- `OptimizedExecutor.execute_parallel`: priority-descending dispatch via
`asyncio.gather`, which reports results in coroutine-list order (the
`isinstance(result, Exception)` branch is dead here because `execute_task`
catches every per-task exception itself). -/
def execute_parallel (env : AgentEnv) (tasks : List Task) : List Outcome :=
  (pySortByPriorityDesc tasks).map (execute_task env)

/-- Dispatch/completion events of the one-at-a-time strategies, indexed by
input position. -/
inductive Ev where
  | start (i : Nat)
  | finish (i : Nat) (o : Outcome)
deriving DecidableEq

/-- The shared loop shape of `execute_sequential` and `execute_thread_pool`:
per iteration, submit one task to the pool (`start`) and block on
`future.result()` (`finish`) before touching the next task.  `pre` is the
per-task mutation done before submission (`id` for sequential; setting
`task_type = "cpu_bound"` for thread mode). -/
def pool_loop (env : AgentEnv) (pre : Task → Task) :
    Nat → List Task → List Outcome × List Ev
  | _, [] => ([], [])
  | i, t :: rest =>
      let o := execute_task env (pre t)
      let rec_result := pool_loop env pre (i + 1) rest
      (o :: rec_result.1, .start i :: .finish i o :: rec_result.2)

/-- `OptimizedExecutor.execute_sequential`. -/
def execute_sequential (env : AgentEnv) (tasks : List Task) : List Outcome :=
  (pool_loop env (fun t => t) 0 tasks).1

/-- Event trace of `execute_sequential`. -/
def execute_sequential_trace (env : AgentEnv) (tasks : List Task) : List Ev :=
  (pool_loop env (fun t => t) 0 tasks).2

/-- `OptimizedExecutor.execute_thread_pool` (sets `task_type = "cpu_bound"`
on each task before submitting it, then waits like sequential mode). -/
def execute_thread_pool (env : AgentEnv) (tasks : List Task) : List Outcome :=
  (pool_loop env (fun t => { t with task_type := "cpu_bound" }) 0 tasks).1

/-- Event trace of `execute_thread_pool`. -/
def execute_thread_pool_trace (env : AgentEnv) (tasks : List Task) : List Ev :=
  (pool_loop env (fun t => { t with task_type := "cpu_bound" }) 0 tasks).2

/-- `OptimizedExecutor._estimate_cpu_usage`. -/
def estimate_cpu_usage (cpu_tasks total : Nat) : String :=
  if cpu_tasks = 0 then "low"
  else if (cpu_tasks : ℚ) < (total : ℚ) / 2 then "medium"
  else "high"

/-- The summary dict returned by `OptimizedExecutor.execute`
(the `execution_time` estimate is elided: wall-clock, no claim uses it). -/
structure ExecSummary where
  mode : String
  total : Nat
  success : Nat
  failed : Nat
  results : List Outcome
  cpu_bound : Nat
  io_bound : Nat
  cpu_utilization : String
deriving DecidableEq

/-- `OptimizedExecutor.execute`: classify, resolve `auto` mode, dispatch, and
summarize. -/
def execute (env : AgentEnv) (tasks : List Task) (mode : String) : ExecSummary :=
  if tasks.isEmpty then
    { mode := mode, total := 0, success := 0, failed := 0, results := [],
      cpu_bound := 0, io_bound := 0, cpu_utilization := "low" }
  else
    let task_types := tasks.map analyze_task_type
    let cpu_bound_count := task_types.count "cpu_bound"
    let io_bound_count := tasks.length - cpu_bound_count
    let total_count := tasks.length
    let selected_mode :=
      if mode = "auto" then
        if (1 : ℚ) / 2 < (cpu_bound_count : ℚ) / (total_count : ℚ) then "thread"
        else if tasks.length ≤ 2 then "sequential"
        else "parallel"
      else mode
    let results :=
      if selected_mode = "parallel" then execute_parallel env tasks
      else if selected_mode = "thread" then execute_thread_pool env tasks
      else if selected_mode = "sequential" then execute_sequential env tasks
      else execute_parallel env tasks
    let success_count := (results.filter (fun r => r.success)).length
    { mode := selected_mode, total := tasks.length, success := success_count,
      failed := results.length - success_count, results := results,
      cpu_bound := cpu_bound_count, io_bound := io_bound_count,
      cpu_utilization := estimate_cpu_usage cpu_bound_count tasks.length }

/-! ### ResultAggregator -/

/-- Key-field triple `(agent, task_type, success)` of a result dict. -/
abbrev HashKey := String × String × Bool

/-- `ResultAggregator._hash_result`: md5 of the canonical JSON dump of the
key fields, modelled by the key triple itself. -/
def hash_result (o : Outcome) : HashKey := (o.agent, o.task_type, o.success)

/-- The `ResultStatus` enum (its `PARTIAL` member is spelled `partial_` here
only because of a Lean keyword clash; its `.value` string is unchanged). -/
inductive ResultStatus where
  | success
  | partial_
  | failed
  | timeout
  | error
deriving DecidableEq

/-- The `.value` string of an enum member. -/
def ResultStatus.value : ResultStatus → String
  | .success => "success"
  | .partial_ => "partial"
  | .failed => "failed"
  | .timeout => "timeout"
  | .error => "error"

/-- The classification loop of `ResultAggregator.aggregate`: walk the result
list; under deduplication, skip any outcome whose hash is already recorded
and record fresh hashes; split the survivors by `success`.  Returns
(successful list, failed list, final hash set). -/
def classify_results (dedup : Bool) (seen : List HashKey) :
    List Outcome → List Outcome × List Outcome × List HashKey
  | [] => ([], [], seen)
  | r :: rest =>
      if dedup ∧ hash_result r ∈ seen then
        classify_results dedup seen rest
      else
        let seen' := if dedup then hash_result r :: seen else seen
        let step := classify_results dedup seen' rest
        if r.success then (r :: step.1, step.2.1, step.2.2)
        else (step.1, r :: step.2.1, step.2.2)

/-- `ResultAggregator._determine_overall_status` (the source only uses the
lengths of the two classified lists, so it is stated on counts). -/
def determine_overall_status (quality_threshold : ℚ)
    (success_count failed_count total : Nat) : ResultStatus :=
  if total = 0 then .success
  else
    let success_rate : ℚ := (success_count : ℚ) / (total : ℚ)
    if success_rate = 1 then .success
    else if quality_threshold ≤ success_rate then .partial_
    else if failed_count = 0 then .success
    else .failed

/-- `ResultAggregator._collect_errors`. -/
def collect_errors (failed_results : List Outcome) : List String :=
  failed_results.map (fun r => "[" ++ r.agent ++ "] " ++ r.error.getD "未知错误")

/-- `AggregatedResult` (summary text and timestamp metadata elided: no claim
references them). -/
structure AggregatedResult where
  overall_status : ResultStatus
  total_count : Nat
  success_count : Nat
  failed_count : Nat
  results : List Outcome
  errors : List String
deriving DecidableEq

/-- `ResultAggregator.aggregate`; `seen` is the instance's `result_hashes`
set, threaded explicitly through the call. -/
def aggregate (enable_deduplication : Bool) (quality_threshold : ℚ)
    (seen : List HashKey) (execution_result : ExecSummary) :
    AggregatedResult × List HashKey :=
  let results := execution_result.results
  let step := classify_results enable_deduplication seen results
  let overall_status := determine_overall_status quality_threshold
    step.1.length step.2.1.length results.length
  ({ overall_status := overall_status,
     total_count := results.length,
     success_count := step.1.length,
     failed_count := step.2.1.length,
     results := results,
     errors := collect_errors step.2.1 }, step.2.2)

/-! ### Orchestrator batch entry point -/

/-- One element of the batch list consumed by
`MultiAgentOrchestrator.execute_parallel_tasks`. -/
structure BatchItem where
  agent : String
  task : String
  context : List (String × String) := []
  priority : Int := 0
deriving DecidableEq

/-- The `Task(...)` construction inside `execute_parallel_tasks` (`timeout`
keeps the dataclass default 300). -/
def batch_to_task (b : BatchItem) : Task :=
  { agent_name := b.agent, task := b.task, context := b.context,
    priority := b.priority }

/-- The dict returned by `execute_parallel_tasks`. -/
structure OrchResult where
  overall_status : String
  total : Nat
  success : Nat
  failed : Nat
  results : List Outcome
deriving DecidableEq

/-- `MultiAgentOrchestrator.execute_parallel_tasks`: build `Task` records,
run the executor, aggregate through the orchestrator's single
`ResultAggregator()` instance (constructor defaults: deduplication enabled,
quality threshold 0.6), and return the dict view.  `seen` is that instance's
accumulated `result_hashes` state. -/
def execute_parallel_tasks (env : AgentEnv) (seen : List HashKey)
    (tasks : List BatchItem) (mode : String) : OrchResult × List HashKey :=
  let execution_result := execute env (tasks.map batch_to_task) mode
  let step := aggregate true (6 / 10) seen execution_result
  ({ overall_status := step.1.overall_status.value,
     total := step.1.total_count,
     success := step.1.success_count,
     failed := step.1.failed_count,
     results := step.1.results }, step.2)

/-! ### TaskRouter -/

/-- `re.sub(r'\s+', ' ', task)`: collapse each maximal whitespace run to one
space (`Char.isWhitespace` covers the whitespace appearing in inputs here). -/
def collapse_ws : List Char → List Char
  | [] => []
  | c :: rest =>
      if c.isWhitespace then ' ' :: collapse_ws (rest.dropWhile Char.isWhitespace)
      else c :: collapse_ws rest
termination_by l => l.length
decreasing_by
  · simpa using Nat.lt_succ_of_le (List.dropWhile_sublist _).length_le
  · simp

/-- `TaskRouter._preprocess_task`: lowercase, then collapse whitespace. -/
def preprocess_task (task : String) : String :=
  String.mk (collapse_ws (pyLower task).toList)

/-- Python regex `\w` restricted to the alphabet occurring in the keyword
lists and the inputs considered here: ASCII alphanumerics, underscore, and
CJK unified ideographs (all of which are `\w` to Python's Unicode-aware
`re`). -/
def isWordChar (c : Char) : Bool :=
  c.isAlphanum || c == '_' || (0x4E00 ≤ c.toNat && c.toNat ≤ 0x9FFF)

/-- Word-character test of the character at position `i` (`false` past the
end, matching `\b` semantics at string edges). -/
def wordCharAt (hay : List Char) (i : Nat) : Bool :=
  match hay.drop i with
  | [] => false
  | c :: _ => isWordChar c

/-- `\b` matches between positions `i-1` and `i` iff word-ness changes. -/
def boundaryAt (hay : List Char) (i : Nat) : Bool :=
  (if i = 0 then false else wordCharAt hay (i - 1)) != wordCharAt hay i

/-- `re.search(r'\b' + re.escape(kw) + r'\b', task)` as a Bool: some
occurrence of the literal `kw` flanked by word boundaries. -/
def reWordSearch (kw hay : List Char) : Bool :=
  (List.range (hay.length + 1)).any fun i =>
    kw.isPrefixOf (hay.drop i) && boundaryAt hay i && boundaryAt hay (i + kw.length)

/-- `TaskRouter.TASK_KEYWORDS` (class attribute; dict in insertion order). -/
def TASK_KEYWORDS : List (String × List String) :=
  [("coder",
    ["代码", "编程", "开发", "函数", "类", "接口", "调试",
     "code", "program", "develop", "function", "class", "debug",
     "bug", "refactor", "algorithm", "api", "backend", "frontend"]),
   ("designer",
    ["设计", "海报", "演示", "文档", "视觉", "UI", "UX",
     "design", "poster", "presentation", "document", "visual",
     "canvas", "slide", "layout", "color", "typography"]),
   ("researcher",
    ["研究", "分析", "调查", "报告", "趋势", "市场", "技术",
     "research", "analyze", "investigate", "report", "trend",
     "market", "technology", "survey", "data", "information"]),
   ("tester",
    ["测试", "验证", "质量", "检查", "单元测试", "集成测试",
     "test", "verify", "quality", "check", "unit test", "integration",
     "automation", "coverage", "bug", "issue", "validation"]),
   ("deployer",
    ["部署", "发布", "运维", "容器", "云", "CI/CD", "服务器",
     "deploy", "release", "operation", "container", "cloud",
     "docker", "kubernetes", "k8s", "infrastructure", "server"]),
   ("analyst",
    ["分析", "数据", "统计", "图表", "报表", "洞察",
     "analyze", "data", "statistics", "chart", "report",
     "insight", "metric", "dashboard", "visualization"]),
   ("documenter",
    ["文档", "注释", "说明", "手册", "教程", "README",
     "document", "comment", "documentation", "manual",
     "tutorial", "specification", "guide"])]

/-- The per-type body of `TaskRouter._analyze_task_type`: +1 per literal
substring hit, +0.5 per word-boundary regex hit, then
`min(1.0, score / (len(keywords) * 0.3))` (0 for an empty keyword list). -/
def router_type_score (keywords : List String) (task : String) : ℚ :=
  let t := (preprocess_task task).toList
  let literal := (keywords.filter (fun kw => containsSub (pyLower kw).toList t)).length
  let word := (keywords.filter (fun kw => reWordSearch (pyLower kw).toList t)).length
  let score : ℚ := (literal : ℚ) + (word : ℚ) / 2
  if keywords.isEmpty then 0
  else min 1 (score / ((keywords.length : ℚ) * (3 / 10)))

/-- `TaskRouter._analyze_task_type` as a total score map
(`type_scores.get(name, 0)` semantics for names outside the dict). -/
def analyze_scores (task : String) : String → ℚ := fun agent_type =>
  match TASK_KEYWORDS.lookup agent_type with
  | some kws => router_type_score kws task
  | none => 0

/-- `RouterConfig` dataclass. -/
structure RouterConfig where
  enable_load_balancing : Bool := true
  max_retries : Nat := 3
  timeout : Nat := 300
  enable_caching : Bool := true
  cache_ttl : Nat := 3600
deriving DecidableEq

/-- `RouteResult` dataclass. -/
structure RouteResult where
  agent_name : String
  confidence : ℚ
  reasoning : String
  alternatives : List (String × ℚ) := []
deriving DecidableEq

/-- `TaskRouter._calculate_final_score`. -/
def calculate_final_score (config : RouterConfig) (load : String → Nat)
    (type_scores : String → ℚ) (agent_name : String) : ℚ :=
  let base_score := type_scores agent_name
  if config.enable_load_balancing then
    base_score * (1 - min (3 / 10) ((load agent_name : ℚ) * (1 / 20)))
  else base_score

/-- `TaskRouter._select_best_agent`: rank by final score (Python's stable
sort, descending) and return the top agent, its score as confidence, and the
next five as alternatives; the sentinel `("default", 0.0, [])` when no agent
is registered. -/
def select_best_agent (config : RouterConfig) (load : String → Nat)
    (type_scores : String → ℚ) (available_agents : List String) :
    String × ℚ × List (String × ℚ) :=
  let agent_scores := available_agents.map
    (fun name => (name, calculate_final_score config load type_scores name))
  let ranked := pyStableSortDescBy (fun p => p.2) agent_scores
  match ranked with
  | [] => ("default", 0, [])
  | best :: rest => (best.1, best.2, rest.take 5)

/-- `TaskRouter._build_reasoning` (the `:.2f` decimal rendering of the
confidence is abstracted to an exact rational rendering; no claim depends on
the rendered digits). -/
def build_reasoning (confidence : ℚ) (matched_keywords : List String) : String :=
  let confidence_desc :=
    if (8 : ℚ) / 10 ≤ confidence then "高置信度"
    else if (5 : ℚ) / 10 ≤ confidence then "中等置信度"
    else "低置信度"
  let keywords_str := String.intercalate ", " (matched_keywords.take 5)
  confidence_desc ++ "（" ++ toString confidence.num ++ "/" ++
    toString confidence.den ++ "），匹配关键词：" ++ keywords_str

/-- Router state: registered worker names (registry key order), config, the
per-worker load counters, and the route cache (an association list with
front insertion — the same first-match lookup semantics as the dict). -/
structure RouterState where
  agents : List String
  config : RouterConfig := {}
  agent_load : String → Nat := fun _ => 0
  route_cache : List (String × RouteResult) := []

/-- `task[:100]`. -/
def pyStrTake (n : Nat) (s : String) : String := String.mk (s.toList.take n)

/-- The cache key `f"{task[:100]}:{preferred_agent}"` (`None` renders as the
literal string "None"). -/
def cache_key_of (task : String) (preferred_agent : Option String) : String :=
  pyStrTake 100 task ++ ":" ++
    (match preferred_agent with | some p => p | none => "None")

/-- The `type_scores` map as it stands right before `_select_best_agent`
inside `TaskRouter.route`: the analyzed scores, with the preferred worker's
entry raised by the fixed 0.3 bonus when that name is truthy (non-empty) and
registered. -/
def route_type_scores (st : RouterState) (task : String)
    (preferred_agent : Option String) : String → ℚ :=
  let type_scores := analyze_scores (preprocess_task task)
  match preferred_agent with
  | some p =>
      if p ≠ "" ∧ p ∈ st.agents then
        Function.update type_scores p (type_scores p + 3 / 10)
      else type_scores
  | none => type_scores

/-- `TaskRouter.route` (route history is untouched state and elided; the
cache-expiry comment in the source is a no-op and stays one here). -/
def route (st : RouterState) (task : String) (preferred_agent : Option String) :
    RouteResult × RouterState :=
  let ckey := cache_key_of task preferred_agent
  match (if st.config.enable_caching then st.route_cache.lookup ckey else none) with
  | some cached => (cached, st)
  | none =>
      let task' := preprocess_task task
      let type_scores := route_type_scores st task preferred_agent
      let sel := select_best_agent st.config st.agent_load type_scores st.agents
      let matched_keywords :=
        ((TASK_KEYWORDS.lookup sel.1).getD []).filter
          (fun kw => containsSub (pyLower kw).toList (pyLower task').toList)
      let result : RouteResult :=
        { agent_name := sel.1, confidence := sel.2.1,
          reasoning := build_reasoning sel.2.1 matched_keywords,
          alternatives := sel.2.2 }
      let cache' :=
        if st.config.enable_caching then (ckey, result) :: st.route_cache
        else st.route_cache
      (result, { st with route_cache := cache' })

/-! ### Derived notions and concrete inputs used by the claims -/

instance : Inhabited Task := ⟨{ agent_name := "", task := "" }⟩

/-- Number of tasks of a batch classifying `cpu_bound` (the
`task_types.count("cpu_bound")` of `execute`). -/
def cpu_bound_count (tasks : List Task) : Nat :=
  (tasks.map analyze_task_type).count "cpu_bound"

/-- The spec's own wording of the status rule (§4.4): `r = success/total`
with `r = 1.0` when `total = 0`, then first matching rule of
success / partial / success-when-no-failures / failed. -/
def spec_overall_status (quality_threshold : ℚ)
    (success_count failed_count total : Nat) : ResultStatus :=
  let r : ℚ := if total = 0 then 1 else (success_count : ℚ) / (total : ℚ)
  if r = 1 then .success
  else if quality_threshold ≤ r then .partial_
  else if failed_count = 0 then .success
  else .failed

/-- The task's registered worker raises, or exceeds the per-task timeout. -/
def worker_raises_or_times_out (env : AgentEnv) (t : Task) : Prop :=
  ∃ beh, env t.agent_name = some beh ∧
    (beh (agent_messages t) = RunBeh.hangs ∨
     ∃ e, beh (agent_messages t) = RunBeh.raises e)

/-- Registry with one worker, `coder`, that always succeeds. -/
def env_one_coder : AgentEnv := fun n =>
  if n = "coder" then some (fun _ => .ok "done" 0) else none

/-- Two batch items delegating to the same worker with distinct task texts:
both outcomes succeed with the same `(agent, task_type, success)` triple. -/
def batch_dup : List BatchItem :=
  [{ agent := "coder", task := "t1" }, { agent := "coder", task := "t2" }]

/-- Registry with a raising worker and a succeeding worker. -/
def env_fail : AgentEnv := fun n =>
  if n = "bad" then some (fun _ => .raises "boom")
  else if n = "good" then some (fun _ => .ok "fine" 1) else none

/-- A task for the raising worker. -/
def task_bad : Task := { agent_name := "bad", task := "x" }

/-- A sibling task for the succeeding worker. -/
def task_good : Task := { agent_name := "good", task := "y" }

/-- Registry with two distinguishable succeeding workers. -/
def env_mix : AgentEnv := fun n =>
  if n = "alice" then some (fun _ => .ok "A" 0)
  else if n = "bob" then some (fun _ => .ok "B" 0) else none

/-- Two tasks whose priorities are input-order-reversed: `bob`'s task has the
higher priority and is dispatched (and reported) first in parallel mode. -/
def tasks_mix : List Task :=
  [{ agent_name := "alice", task := "t1" },
   { agent_name := "bob", task := "t2", priority := 5 }]

/-- Fresh router over the single worker `coder`. -/
def st_coder : RouterState := { agents := ["coder"] }

/-- A description hitting enough coder keywords to saturate the normalized
type-match score at 1.0. -/
def task_c8 : String := "code program develop function class debug"

/-- Batch delegating to the raising worker and the succeeding worker. -/
def batch_fail : List BatchItem :=
  [{ agent := "bad", task := "x" }, { agent := "good", task := "y" }]

/-- An outcome whose result text is "text one". -/
def outcome_text_one : Outcome :=
  { agent := "a", success := true, result := some "text one",
    task_type := "io_bound" }

/-- The same outcome except for its result text. -/
def outcome_text_two : Outcome :=
  { agent := "a", success := true, result := some "other text",
    task_type := "io_bound" }

/-- A one-outcome execution summary used to exercise re-aggregation. -/
def er_demo : ExecSummary :=
  { mode := "parallel", total := 1, success := 1, failed := 0,
    results := [{ agent := "a", success := true, result := some "text one",
                  task_type := "io_bound" }],
    cpu_bound := 0, io_bound := 1, cpu_utilization := "low" }

/-! ## Theorems -/

theorem containsSub_iff (n h : List Char) :
    containsSub n h = true ↔ ∃ p q, h = p ++ n ++ q := by
  unfold containsSub
  simp only [List.any_eq_true, List.mem_range, List.isPrefixOf_iff_prefix]
  constructor
  · rintro ⟨i, _, t, ht⟩
    exact ⟨h.take i, t, by rw [List.append_assoc, ht, List.take_append_drop]⟩
  · rintro ⟨p, q, rfl⟩
    refine ⟨p.length, ?_, q, ?_⟩
    · simp [Nat.lt_succ_of_le]
    · rw [List.append_assoc, List.drop_left]

/-- C6 — task classification is a pure, deterministic function of the task
description: it returns `cpu_bound` iff the lowercased description contains a
keyword of the fixed bilingual CPU list as a (case-insensitive) substring, and
`io_bound` otherwise; two tasks with the same description text classify
identically regardless of their other fields. -/
theorem claim_C6_classifier_pure_keyword_substring (t : Task) :
    (analyze_task_type t = "cpu_bound" ↔
      ∃ kw ∈ cpu_keywords, ∃ p q,
        (pyLower t.task).toList = p ++ (pyLower kw).toList ++ q) ∧
    (analyze_task_type t = "cpu_bound" ∨ analyze_task_type t = "io_bound") ∧
    (∀ t' : Task, t.task = t'.task → analyze_task_type t = analyze_task_type t') := by
  refine ⟨?_, ?_, ?_⟩
  · constructor
    · intro hcpu
      have h : cpu_keywords.any
          (fun kw => containsSub (pyLower kw).toList (pyLower t.task).toList) = true := by
        by_contra hno
        unfold analyze_task_type at hcpu
        rw [if_neg hno] at hcpu
        exact absurd hcpu (by decide)
      obtain ⟨kw, hkw, hc⟩ := List.any_eq_true.mp h
      exact ⟨kw, hkw, (containsSub_iff _ _).mp hc⟩
    · rintro ⟨kw, hkw, p, q, hsplit⟩
      unfold analyze_task_type
      rw [if_pos (List.any_eq_true.mpr
        ⟨kw, hkw, (containsSub_iff _ _).mpr ⟨p, q, hsplit⟩⟩)]
  · unfold analyze_task_type
    split
    · exact Or.inl rfl
    · exact Or.inr rfl
  · intro t' htask
    unfold analyze_task_type
    rw [htask]

/-- Witness for C6 at a concrete input: "batch convert the files" contains the
keyword "batch", so it classifies `cpu_bound`; determinism instantiated on a
second task record with the same text but different agent and priority. -/
theorem claim_C6_witness :
    (analyze_task_type { agent_name := "a", task := "Batch convert the files" }
        = "cpu_bound" ↔
      ∃ kw ∈ cpu_keywords, ∃ p q,
        (pyLower "Batch convert the files").toList = p ++ (pyLower kw).toList ++ q) ∧
    analyze_task_type { agent_name := "a", task := "Batch convert the files" } =
      analyze_task_type { agent_name := "b", task := "Batch convert the files", priority := 7 } := by
  constructor
  · exact (claim_C6_classifier_pure_keyword_substring
      { agent_name := "a", task := "Batch convert the files" }).1
  · exact (claim_C6_classifier_pure_keyword_substring
      { agent_name := "a", task := "Batch convert the files" }).2.2
      { agent_name := "b", task := "Batch convert the files", priority := 7 } rfl

/-- `execute_task` recomputes the task type from the description and never
reads the incoming `task_type` field (so `execute_thread_pool`'s
`task.task_type = "cpu_bound"` mutation does not change the outcome). -/
theorem execute_task_task_type_irrel (env : AgentEnv) (t : Task) (s : String) :
    execute_task env { t with task_type := s } = execute_task env t := rfl

theorem withIdxFrom_map_snd {α : Type} (i : Nat) (l : List α) :
    (withIdxFrom i l).map Prod.snd = l := by
  induction l generalizing i with
  | nil => rfl
  | cons a l ih => simp [withIdxFrom, ih]

theorem pyStableSortDescBy_perm {α K : Type} [LinearOrder K] (key : α → K)
    (l : List α) : (pyStableSortDescBy key l).Perm l := by
  have h := (List.perm_insertionSort (stableKeyBefore key)
    (withIdxFrom 0 l)).map Prod.snd
  rwa [withIdxFrom_map_snd] at h

theorem pool_loop_outcomes (env : AgentEnv) (pre : Task → Task)
    (i : Nat) (tasks : List Task) :
    (pool_loop env pre i tasks).1 = tasks.map (fun t => execute_task env (pre t)) := by
  induction tasks generalizing i with
  | nil => rfl
  | cons t rest ih => simp [pool_loop, ih]

theorem pySortByPriorityDesc_perm (l : List Task) :
    (pySortByPriorityDesc l).Perm l := by
  unfold pySortByPriorityDesc
  exact pyStableSortDescBy_perm (fun t => t.priority) l

theorem execute_parallel_perm (env : AgentEnv) (tasks : List Task) :
    (execute_parallel env tasks).Perm (tasks.map (execute_task env)) :=
  (pySortByPriorityDesc_perm tasks).map (execute_task env)

theorem execute_sequential_eq (env : AgentEnv) (tasks : List Task) :
    execute_sequential env tasks = tasks.map (execute_task env) := by
  unfold execute_sequential
  rw [pool_loop_outcomes]

theorem execute_thread_pool_eq (env : AgentEnv) (tasks : List Task) :
    execute_thread_pool env tasks = tasks.map (execute_task env) := by
  unfold execute_thread_pool
  rw [pool_loop_outcomes]
  exact List.map_congr_left (fun t _ => execute_task_task_type_irrel env t _)

/-- Whatever mode is requested or resolved, the result list of `execute` is a
permutation of one `execute_task` outcome per input task. -/
theorem execute_results_perm (env : AgentEnv) (tasks : List Task) (mode : String) :
    ((execute env tasks mode).results).Perm (tasks.map (execute_task env)) := by
  unfold execute
  split
  · rename_i hempty
    rw [List.isEmpty_iff] at hempty
    subst hempty
    simp
  · dsimp only
    repeat' split
    all_goals first
      | exact execute_parallel_perm env tasks
      | rw [execute_thread_pool_eq]
      | rw [execute_sequential_eq]

/-- C1 — per-task failure isolation: whatever mode `execute` runs a batch in,
the batch result holds exactly one outcome per input task (as a multiset, one
`execute_task` record each), and any task whose worker raises or exceeds its
timeout yields an outcome with `success = false` carrying an error message;
`execute_task` is a total function (it returns the failure record instead of
propagating), so no sibling outcome is lost. -/
theorem claim_C1_failure_isolation (env : AgentEnv) (tasks : List Task) (mode : String) :
    ((execute env tasks mode).results).Perm (tasks.map (execute_task env)) ∧
    ∀ t ∈ tasks, worker_raises_or_times_out env t →
      (execute_task env t).success = false ∧ (execute_task env t).error ≠ none := by
  refine ⟨execute_results_perm env tasks mode, ?_⟩
  rintro t - ⟨beh, hbeh, hfail⟩
  rcases hfail with h | ⟨e, h⟩ <;> simp [execute_task, hbeh, h]

/-- Witness for C1: in a two-task batch, the task of the raising worker `bad`
is recorded as a failed outcome with an error message. -/
theorem claim_C1_witness :
    (execute_task env_fail task_bad).success = false ∧
    (execute_task env_fail task_bad).error ≠ none :=
  (claim_C1_failure_isolation env_fail [task_bad, task_good] "auto").2 task_bad
    (by simp) ⟨fun _ => .raises "boom", rfl, Or.inr ⟨"boom", rfl⟩⟩

/-- C10 — parallel mode returns the outcomes of the priority-descending
stable sort of the input (one outcome per task), not input order: the output
is the map of `execute_task` over the stably sorted task list, a permutation
of the input's outcomes of the input's length; the sorted list is pairwise
nonincreasing in priority, and on the index-tagged list equal priorities keep
their input order; concretely, with a higher-priority second task the first
reported outcome is the second input task's, not the first's. -/
theorem claim_C10_parallel_priority_order (env : AgentEnv) (tasks : List Task) :
    execute_parallel env tasks =
      (pySortByPriorityDesc tasks).map (execute_task env) ∧
    (execute_parallel env tasks).Perm (tasks.map (execute_task env)) ∧
    (execute_parallel env tasks).length = tasks.length ∧
    (pySortByPriorityDesc tasks).Pairwise (fun a b => b.priority ≤ a.priority) ∧
    (List.insertionSort (stableKeyBefore (fun t : Task => t.priority))
        (withIdxFrom 0 tasks)).Pairwise
      (stableKeyBefore (fun t : Task => t.priority)) ∧
    ((execute_parallel env_mix tasks_mix).head? =
        some (execute_task env_mix { agent_name := "bob", task := "t2", priority := 5 }) ∧
      (tasks_mix.map (execute_task env_mix)).head? =
        some (execute_task env_mix { agent_name := "alice", task := "t1" }) ∧
      execute_task env_mix { agent_name := "bob", task := "t2", priority := 5 } ≠
        execute_task env_mix { agent_name := "alice", task := "t1" }) := by
  refine ⟨rfl, execute_parallel_perm env tasks, ?_, ?_, ?_, ?_, ?_, ?_⟩
  · rw [(execute_parallel_perm env tasks).length_eq, List.length_map]
  · have hs := List.sorted_insertionSort
      (stableKeyBefore (fun t : Task => t.priority)) (withIdxFrom 0 tasks)
    exact hs.map _ (fun a b hab => by
      rcases hab with h | ⟨h, -⟩
      · exact le_of_lt h
      · exact le_of_eq h.symm)
  · exact List.sorted_insertionSort
      (stableKeyBefore (fun t : Task => t.priority)) (withIdxFrom 0 tasks)
  · decide
  · decide
  · decide

theorem pool_loop_trace_get (env : AgentEnv) (pre : Task → Task)
    (tasks : List Task) :
    ∀ (i k : Nat), k < tasks.length →
      (pool_loop env pre i tasks).2.get? (2 * k) = some (.start (i + k)) ∧
      (pool_loop env pre i tasks).2.get? (2 * k + 1) =
        some (.finish (i + k) (execute_task env (pre (tasks.getD k default)))) := by
  induction tasks with
  | nil => intro i k hk; simp at hk
  | cons t rest ih =>
    intro i k hk
    have hexp : (pool_loop env pre i (t :: rest)).2 =
        .start i :: .finish i (execute_task env (pre t)) ::
          (pool_loop env pre (i + 1) rest).2 := by
      simp [pool_loop]
    cases k with
    | zero => rw [hexp]; simp
    | succ k' =>
      have hk' : k' < rest.length := Nat.lt_of_succ_lt_succ hk
      have ihk := ih (i + 1) k' hk'
      have e1 : 2 * (k' + 1) = 2 * k' + 1 + 1 := by ring
      have e2 : 2 * (k' + 1) + 1 = 2 * k' + 1 + 1 + 1 := by ring
      have e3 : i + (k' + 1) = (i + 1) + k' := by omega
      constructor
      · rw [hexp, e1, e3, List.get?_cons_succ, List.get?_cons_succ]
        exact ihk.1
      · rw [hexp, e2, e3, List.getD_cons_succ, List.get?_cons_succ,
          List.get?_cons_succ]
        exact ihk.2

/-- C9 — sequential and thread modes run tasks strictly one at a time in
input order: both return one outcome per task in input order; their event
traces place `start k` at position `2k` and `finish k` at position `2k + 1`,
so for `a < b` the recording of task `a`'s outcome precedes the start of task
`b`. -/
theorem claim_C9_one_at_a_time_in_order (env : AgentEnv) (tasks : List Task) :
    execute_sequential env tasks = tasks.map (execute_task env) ∧
    execute_thread_pool env tasks = tasks.map (execute_task env) ∧
    (∀ k, k < tasks.length →
      (execute_sequential_trace env tasks).get? (2 * k) = some (.start k) ∧
      (execute_sequential_trace env tasks).get? (2 * k + 1) =
        some (.finish k (execute_task env (tasks.getD k default)))) ∧
    (∀ k, k < tasks.length →
      (execute_thread_pool_trace env tasks).get? (2 * k) = some (.start k) ∧
      (execute_thread_pool_trace env tasks).get? (2 * k + 1) =
        some (.finish k (execute_task env (tasks.getD k default)))) ∧
    (∀ a b, a < b → b < tasks.length →
      ∃ p q, p < q ∧
        (execute_sequential_trace env tasks).get? p =
          some (.finish a (execute_task env (tasks.getD a default))) ∧
        (execute_sequential_trace env tasks).get? q = some (.start b)) := by
  have hseq : ∀ k, k < tasks.length →
      (execute_sequential_trace env tasks).get? (2 * k) = some (.start k) ∧
      (execute_sequential_trace env tasks).get? (2 * k + 1) =
        some (.finish k (execute_task env (tasks.getD k default))) := by
    intro k hk
    have h := pool_loop_trace_get env (fun t => t) tasks 0 k hk
    simpa using h
  refine ⟨execute_sequential_eq env tasks, execute_thread_pool_eq env tasks,
    hseq, ?_, ?_⟩
  · intro k hk
    have h := pool_loop_trace_get env
      (fun t => { t with task_type := "cpu_bound" }) tasks 0 k hk
    rw [execute_task_task_type_irrel] at h
    simpa using h
  · intro a b hab hb
    refine ⟨2 * a + 1, 2 * b, by omega, ?_, ?_⟩
    · exact (hseq a (lt_trans hab hb)).2
    · exact (hseq b hb).1

/-- Witness for C9: on the concrete two-task batch, outcomes come back in
input order, task 0's outcome is recorded at trace position 1, and task 1
starts only at position 2. -/
theorem claim_C9_witness :
    execute_sequential env_mix tasks_mix = tasks_mix.map (execute_task env_mix) ∧
    (execute_sequential_trace env_mix tasks_mix).get? 1 =
      some (.finish 0 (execute_task env_mix (tasks_mix.getD 0 default))) ∧
    (execute_sequential_trace env_mix tasks_mix).get? 2 = some (.start 1) := by
  refine ⟨(claim_C9_one_at_a_time_in_order env_mix tasks_mix).1, ?_, ?_⟩
  · have h := ((claim_C9_one_at_a_time_in_order env_mix tasks_mix).2.2.1 0
      (by decide)).2
    simpa using h
  · have h := ((claim_C9_one_at_a_time_in_order env_mix tasks_mix).2.2.1 1
      (by decide)).1
    simpa using h

theorem half_lt_div_iff (c n : Nat) (hn : n ≠ 0) :
    ((1 : ℚ) / 2 < (c : ℚ) / (n : ℚ)) ↔ n < 2 * c := by
  have hn' : (0 : ℚ) < (n : ℚ) := by exact_mod_cast Nat.pos_of_ne_zero hn
  rw [div_lt_div_iff₀ (by norm_num) hn', one_mul,
    show ((c : ℚ) * 2) = ((2 * c : Nat) : ℚ) by push_cast; ring]
  exact Nat.cast_lt

theorem execute_mode_auto (env : AgentEnv) (tasks : List Task) (h : tasks ≠ []) :
    (execute env tasks "auto").mode =
      if tasks.length < 2 * cpu_bound_count tasks then "thread"
      else if tasks.length ≤ 2 then "sequential"
      else "parallel" := by
  have hlen : tasks.length ≠ 0 := by
    intro hc; exact h (List.length_eq_zero.mp hc)
  have hempty : tasks.isEmpty = false := by
    cases tasks with
    | nil => exact absurd rfl h
    | cons a l => rfl
  unfold execute
  simp only [hempty, Bool.false_eq_true, if_false]
  rw [if_pos trivial,
    if_congr (half_lt_div_iff ((tasks.map analyze_task_type).count "cpu_bound")
      tasks.length hlen) rfl rfl]
  rfl

/-- C4 — `auto` mode resolution: for a non-empty batch the selected mode is
`thread` exactly when the `cpu_bound` share strictly exceeds one half
(`total < 2 * cpu`), otherwise `sequential` exactly when the batch has at
most two tasks, otherwise `parallel`; hence the selected mode is a pure
function of the classified counts and the total. -/
theorem claim_C4_auto_mode_selection (env : AgentEnv) (tasks : List Task)
    (h : tasks ≠ []) :
    (execute env tasks "auto").mode =
      (if tasks.length < 2 * cpu_bound_count tasks then "thread"
       else if tasks.length ≤ 2 then "sequential"
       else "parallel") ∧
    ∀ (env' : AgentEnv) (tasks' : List Task), tasks' ≠ [] →
      cpu_bound_count tasks' = cpu_bound_count tasks →
      tasks'.length = tasks.length →
      (execute env' tasks' "auto").mode = (execute env tasks "auto").mode := by
  refine ⟨execute_mode_auto env tasks h, ?_⟩
  intro env' tasks' h' hc hl
  rw [execute_mode_auto env' tasks' h', execute_mode_auto env tasks h, hc, hl]

/-- Witness for C4: the two-task all-`io_bound` batch resolves to
`sequential`, matching the count formula. -/
theorem claim_C4_witness :
    (execute env_mix tasks_mix "auto").mode =
      (if tasks_mix.length < 2 * cpu_bound_count tasks_mix then "thread"
       else if tasks_mix.length ≤ 2 then "sequential"
       else "parallel") ∧
    (execute env_mix tasks_mix "auto").mode = "sequential" := by
  constructor
  · exact (claim_C4_auto_mode_selection env_mix tasks_mix (by decide)).1
  · rw [(claim_C4_auto_mode_selection env_mix tasks_mix (by decide)).1]
    decide

/-! ### Aggregator lemmas and claims C2, C3, C5 -/

theorem classify_results_length_le (dedup : Bool) (seen : List HashKey)
    (rs : List Outcome) :
    (classify_results dedup seen rs).1.length +
      (classify_results dedup seen rs).2.1.length ≤ rs.length := by
  induction rs generalizing seen with
  | nil => simp [classify_results]
  | cons r rest ih =>
    unfold classify_results
    split
    · have h := ih seen
      simp only [List.length_cons]
      omega
    · dsimp only
      have h := ih (if dedup then hash_result r :: seen else seen)
      split <;> simp only [List.length_cons] <;> omega

theorem classify_results_length_eq (seen : List HashKey) (rs : List Outcome)
    (hnodup : (rs.map hash_result).Nodup)
    (hseen : ∀ r ∈ rs, hash_result r ∉ seen) :
    (classify_results true seen rs).1.length +
      (classify_results true seen rs).2.1.length = rs.length := by
  induction rs generalizing seen with
  | nil => simp [classify_results]
  | cons r rest ih =>
    have hcond : ¬(true = true ∧ hash_result r ∈ seen) := by
      rintro ⟨-, hmem⟩
      exact hseen r (List.mem_cons_self r rest) hmem
    rw [List.map_cons, List.nodup_cons] at hnodup
    have hrest := ih (hash_result r :: seen)
      hnodup.2
      (by
        intro r' hr' hmem
        rcases List.mem_cons.mp hmem with heq | hmem'
        · exact hnodup.1 (heq ▸ List.mem_map_of_mem hash_result hr')
        · exact hseen r' (List.mem_cons_of_mem r hr') hmem')
    unfold classify_results
    rw [if_neg hcond]
    dsimp only
    rw [if_pos rfl]
    split <;> simp only [List.length_cons] <;> omega

theorem classify_results_seen_mono (seen : List HashKey) (rs : List Outcome) :
    seen ⊆ (classify_results true seen rs).2.2 := by
  induction rs generalizing seen with
  | nil => simp [classify_results]
  | cons r rest ih =>
    unfold classify_results
    split
    · exact ih seen
    · dsimp only
      rw [if_pos rfl]
      have h := ih (hash_result r :: seen)
      have h' : seen ⊆ (classify_results true (hash_result r :: seen) rest).2.2 :=
        fun x hx => h (List.mem_cons_of_mem _ hx)
      split <;> exact h'

theorem classify_results_hash_mem (seen : List HashKey) (rs : List Outcome) :
    ∀ r ∈ rs, hash_result r ∈ (classify_results true seen rs).2.2 := by
  induction rs generalizing seen with
  | nil => simp
  | cons r rest ih =>
    intro r' hr'
    unfold classify_results
    split
    · rename_i hcond
      rcases List.mem_cons.mp hr' with heq | hmem
      · exact classify_results_seen_mono seen rest (heq ▸ hcond.2)
      · exact ih seen r' hmem
    · rename_i hcond
      dsimp only
      rw [if_pos rfl]
      have hin : hash_result r' ∈
          (classify_results true (hash_result r :: seen) rest).2.2 := by
        rcases List.mem_cons.mp hr' with heq | hmem
        · exact classify_results_seen_mono (hash_result r :: seen) rest
            (heq ▸ List.mem_cons_self _ _)
        · exact ih (hash_result r :: seen) r' hmem
      split <;> exact hin

theorem classify_results_all_seen (seen : List HashKey) (rs : List Outcome)
    (h : ∀ r ∈ rs, hash_result r ∈ seen) :
    classify_results true seen rs = ([], [], seen) := by
  induction rs with
  | nil => rfl
  | cons r rest ih =>
    unfold classify_results
    rw [if_pos ⟨rfl, h r (List.mem_cons_self r rest)⟩]
    exact ih (fun r' hr' => h r' (List.mem_cons_of_mem r hr'))

/-- C2 counterexample: two same-worker succeeding tasks through
`execute_parallel_tasks` with the orchestrator's default (dedup-enabled)
aggregator — the second outcome is dropped by deduplication, so
`success + failed = 1 ≠ 2 = total` (while `total` still counts both). -/
theorem claim_C2_counterexample :
    batch_dup ≠ [] ∧
    (execute_parallel_tasks env_one_coder [] batch_dup "auto").1.success +
        (execute_parallel_tasks env_one_coder [] batch_dup "auto").1.failed ≠
      (execute_parallel_tasks env_one_coder [] batch_dup "auto").1.total := by
  constructor
  · decide
  · with_unfolding_all decide

/-- C2 amended — for every non-empty batch through `execute_parallel_tasks`:
`total == len(tasks)` holds unconditionally, but with the default
deduplicating aggregator only `success + failed ≤ total` holds in general;
the claimed equality `success + failed == total` holds exactly in the absence
of dropped duplicates, e.g. whenever the batch's outcome hash triples are
pairwise distinct and none was seen by the aggregator instance before. -/
theorem claim_C2_amended_batch_counts (env : AgentEnv) (seen : List HashKey)
    (tasks : List BatchItem) (mode : String) (_hne : tasks ≠ []) :
    (execute_parallel_tasks env seen tasks mode).1.total = tasks.length ∧
    (execute_parallel_tasks env seen tasks mode).1.success +
        (execute_parallel_tasks env seen tasks mode).1.failed ≤
      (execute_parallel_tasks env seen tasks mode).1.total ∧
    ((((execute env (tasks.map batch_to_task) mode).results).map hash_result).Nodup →
      (∀ r ∈ (execute env (tasks.map batch_to_task) mode).results,
        hash_result r ∉ seen) →
      (execute_parallel_tasks env seen tasks mode).1.success +
          (execute_parallel_tasks env seen tasks mode).1.failed =
        (execute_parallel_tasks env seen tasks mode).1.total) := by
  refine ⟨?_, ?_, ?_⟩
  · show ((execute env (tasks.map batch_to_task) mode).results).length = tasks.length
    rw [(execute_results_perm env (tasks.map batch_to_task) mode).length_eq,
      List.length_map, List.length_map]
  · exact classify_results_length_le true seen
      (execute env (tasks.map batch_to_task) mode).results
  · intro hnodup hseen
    exact classify_results_length_eq seen
      (execute env (tasks.map batch_to_task) mode).results hnodup hseen

/-- Witness for C2 (amended): a batch whose two outcomes have distinct hash
triples satisfies both counts laws. -/
theorem claim_C2_witness :
    (execute_parallel_tasks env_fail [] batch_fail "auto").1.total =
      batch_fail.length ∧
    (execute_parallel_tasks env_fail [] batch_fail "auto").1.success +
        (execute_parallel_tasks env_fail [] batch_fail "auto").1.failed =
      (execute_parallel_tasks env_fail [] batch_fail "auto").1.total := by
  have H := claim_C2_amended_batch_counts env_fail [] batch_fail "auto" (by decide)
  exact ⟨H.1, H.2.2 (by with_unfolding_all decide) (by with_unfolding_all decide)⟩

/-- C3 — the dedup hash covers only `(agent, task_type, success)` (task
content and result text are ignored), and re-aggregating an identical batch
on the same instance drops every outcome: the second aggregation classifies
nothing, so `success_count == 0` (and `failed_count == 0`). -/
theorem claim_C3_dedup_hash_ignores_content (th : ℚ) (seen : List HashKey)
    (er : ExecSummary) :
    (∀ o o' : Outcome, o.agent = o'.agent → o.task_type = o'.task_type →
      o.success = o'.success → hash_result o = hash_result o') ∧
    (aggregate true th (aggregate true th seen er).2 er).1.success_count = 0 ∧
    (aggregate true th (aggregate true th seen er).2 er).1.failed_count = 0 := by
  have hall : ∀ r ∈ er.results,
      hash_result r ∈ (aggregate true th seen er).2 :=
    classify_results_hash_mem seen er.results
  have hclass :
      classify_results true (aggregate true th seen er).2 er.results =
        ([], [], (aggregate true th seen er).2) :=
    classify_results_all_seen _ _ hall
  refine ⟨?_, ?_, ?_⟩
  · intro o o' h1 h2 h3
    unfold hash_result
    rw [h1, h2, h3]
  · show (classify_results true (aggregate true th seen er).2 er.results).1.length = 0
    rw [hclass]
    rfl
  · show (classify_results true (aggregate true th seen er).2 er.results).2.1.length = 0
    rw [hclass]
    rfl

/-- Witness for C3: two outcomes differing only in result text hash equally,
and the concrete one-outcome summary re-aggregates to zero successes. -/
theorem claim_C3_witness :
    hash_result outcome_text_one = hash_result outcome_text_two ∧
    (aggregate true (6 / 10) (aggregate true (6 / 10) [] er_demo).2
        er_demo).1.success_count = 0 :=
  ⟨(claim_C3_dedup_hash_ignores_content (6 / 10) [] er_demo).1
      outcome_text_one outcome_text_two rfl rfl rfl,
   (claim_C3_dedup_hash_ignores_content (6 / 10) [] er_demo).2.1⟩

/-- C5 — status determination: the source's rule coincides everywhere with
the spec's ratio rule (`r = success/total`, `r = 1` when `total = 0`; first
match of success / partial / no-failures-success / failed), `aggregate` wires
exactly these counts into it, and on the claim's concrete batch of 10 with 6
successes the threshold 0.6 yields `partial` while 0.7 yields `failed`. -/
theorem claim_C5_status_ratio_rule :
    (∀ (th : ℚ) (s f t : Nat),
      determine_overall_status th s f t = spec_overall_status th s f t) ∧
    (∀ (dedup : Bool) (th : ℚ) (seen : List HashKey) (er : ExecSummary),
      (aggregate dedup th seen er).1.overall_status =
        determine_overall_status th (aggregate dedup th seen er).1.success_count
          (aggregate dedup th seen er).1.failed_count
          (aggregate dedup th seen er).1.total_count) ∧
    determine_overall_status (6 / 10) 6 4 10 = ResultStatus.partial_ ∧
    determine_overall_status (7 / 10) 6 4 10 = ResultStatus.failed := by
  refine ⟨?_, fun _ _ _ _ => rfl, by with_unfolding_all decide,
    by with_unfolding_all decide⟩
  intro th s f t
  unfold determine_overall_status spec_overall_status
  by_cases ht : t = 0
  · subst ht; simp
  · simp only [ht, if_false]

/-! ### Router lemmas and claims C7, C8 -/

theorem lookup_mem {β : Type} (k : String) (v : β) :
    ∀ l : List (String × β), l.lookup k = some v → (k, v) ∈ l := by
  intro l
  induction l with
  | nil => intro h; simp [List.lookup] at h
  | cons p rest ih =>
    intro h
    obtain ⟨k', v'⟩ := p
    rw [List.lookup] at h
    split at h
    · rename_i heq
      have hk : k = k' := by simpa using heq
      cases h
      rw [hk]
      exact List.mem_cons_self _ _
    · exact List.mem_cons_of_mem _ (ih h)

/-- C7 — routing never fails and degrades to the sentinel: with no registered
workers, `route` returns worker name "default" with confidence 0 and no
alternatives, for every task, preferred-worker argument and reachable cache
(all cached entries of a worker-less router are themselves sentinels, an
invariant `route` preserves). -/
theorem claim_C7_route_no_workers_default (st : RouterState) (task : String)
    (preferred_agent : Option String)
    (hagents : st.agents = [])
    (hcache : ∀ kv ∈ st.route_cache,
      kv.2.agent_name = "default" ∧ kv.2.confidence = 0 ∧
        kv.2.alternatives = ([] : List (String × ℚ))) :
    ((route st task preferred_agent).1.agent_name = "default" ∧
     (route st task preferred_agent).1.confidence = 0 ∧
     (route st task preferred_agent).1.alternatives = []) ∧
    ∀ kv ∈ (route st task preferred_agent).2.route_cache,
      kv.2.agent_name = "default" ∧ kv.2.confidence = 0 ∧
        kv.2.alternatives = ([] : List (String × ℚ)) := by
  unfold route
  cases hmatch : (if st.config.enable_caching then
      st.route_cache.lookup (cache_key_of task preferred_agent) else none) with
  | some cached =>
    have hmem : (cache_key_of task preferred_agent, cached) ∈ st.route_cache := by
      by_cases hen : st.config.enable_caching = true
      · rw [if_pos hen] at hmatch
        exact lookup_mem _ _ _ hmatch
      · rw [if_neg hen] at hmatch
        cases hmatch
    simp only [hmatch]
    exact ⟨hcache _ hmem, hcache⟩
  | none =>
    simp only [hmatch, hagents]
    refine ⟨⟨rfl, rfl, rfl⟩, ?_⟩
    intro kv hkv
    rcases hkv' : st.config.enable_caching with - | -
    · rw [hkv'] at hkv
      simp only [Bool.false_eq_true, if_false] at hkv
      exact hcache kv hkv
    · rw [hkv'] at hkv
      simp only [if_true] at hkv
      rcases List.mem_cons.mp hkv with heq | hmem'
      · subst heq
        exact ⟨rfl, rfl, rfl⟩
      · exact hcache kv hmem'

/-- Witness for C7: a worker-less router routes a concrete task with a
preferred worker to the sentinel. -/
theorem claim_C7_witness :
    (route { agents := [] } "deploy the server" (some "x")).1.agent_name =
      "default" ∧
    (route { agents := [] } "deploy the server" (some "x")).1.confidence = 0 ∧
    (route { agents := [] } "deploy the server" (some "x")).1.alternatives = [] :=
  (claim_C7_route_no_workers_default { agents := [] } "deploy the server"
    (some "x") rfl (by simp)).1

/-- C8 — the preferred-worker bonus and the unclamped confidence: when the
preferred worker is truthy and registered, the score map handed to ranking is
exactly the analyzed map with that worker's normalized type-match score
raised by 0.3 (all other workers unchanged); and on a concrete input the
returned confidence is 13/10, strictly above 1. -/
theorem claim_C8_preferred_bonus_unclamped :
    (∀ (st : RouterState) (task : String) (p : String),
      p ≠ "" → p ∈ st.agents →
      route_type_scores st task (some p) p =
        analyze_scores (preprocess_task task) p + 3 / 10 ∧
      ∀ a, a ≠ p →
        route_type_scores st task (some p) a =
          analyze_scores (preprocess_task task) a) ∧
    (route st_coder task_c8 (some "coder")).1.confidence = 13 / 10 ∧
    1 < (route st_coder task_c8 (some "coder")).1.confidence := by
  refine ⟨?_, ?_, ?_⟩
  · intro st task p hne hmem
    unfold route_type_scores
    dsimp only
    rw [if_pos ⟨hne, hmem⟩]
    constructor
    · rw [Function.update_same]
    · intro a ha
      rw [Function.update_noteq ha]
  · with_unfolding_all decide
  · with_unfolding_all decide

/-- Witness for C8: the bonus law instantiated on the concrete router — the
preferred `coder` entry gains exactly 0.3, `designer` is untouched. -/
theorem claim_C8_witness :
    route_type_scores st_coder "x" (some "coder") "coder" =
      analyze_scores (preprocess_task "x") "coder" + 3 / 10 ∧
    route_type_scores st_coder "x" (some "coder") "designer" =
      analyze_scores (preprocess_task "x") "designer" := by
  have H := claim_C8_preferred_bonus_unclamped.1 st_coder "x" "coder"
    (by decide) (by decide)
  exact ⟨H.1, H.2 "designer" (by decide)⟩

/-- Witness for C10: on the concrete two-task batch the first reported
outcome is the higher-priority second input task's outcome. -/
theorem claim_C10_witness :
    (execute_parallel env_mix tasks_mix).head? =
      some (execute_task env_mix { agent_name := "bob", task := "t2", priority := 5 }) :=
  (claim_C10_parallel_priority_order env_mix tasks_mix).2.2.2.2.2.1

end MiniAgent
